import Mathlib

/-!
Verification of the blockchain-style migration runner
(`scripts/migrate.js`, class `BlockchainMigration`) and the destructive
reset utility (`scripts/reset-dev-db.js`).

The embedding models: SHA-256 content hashing (`calculateHash`), UTF-8
decoding as performed by `fs.readFileSync(path, 'utf8')`, migration
discovery and ordering, the ledger table `blockchain_migrations`, the
integrity verifier, the transactional apply step, the `run` and `verify`
commands, and the dev-database reset flow.
-/

namespace Migrate

/-- Truncate to 32 bits, as all SHA-256 word arithmetic is mod 2^32. -/
def w32 (n : Nat) : Nat := n % 4294967296

/-- 32-bit right rotation. -/
def rotr32 (n x : Nat) : Nat := w32 ((x >>> n) ||| (x <<< (32 - n)))

/-- 32-bit bitwise complement of an already-truncated word. -/
def bnot32 (x : Nat) : Nat := 4294967295 - x

def ch32 (x y z : Nat) : Nat := (x &&& y) ^^^ (bnot32 x &&& z)

def maj32 (x y z : Nat) : Nat := (x &&& y) ^^^ (x &&& z) ^^^ (y &&& z)

def bsig0 (x : Nat) : Nat := rotr32 2 x ^^^ rotr32 13 x ^^^ rotr32 22 x

def bsig1 (x : Nat) : Nat := rotr32 6 x ^^^ rotr32 11 x ^^^ rotr32 25 x

def ssig0 (x : Nat) : Nat := rotr32 7 x ^^^ rotr32 18 x ^^^ (x >>> 3)

def ssig1 (x : Nat) : Nat := rotr32 17 x ^^^ rotr32 19 x ^^^ (x >>> 10)

/-- The 64 SHA-256 round constants. -/
def sha256K : List Nat :=
  [1116352408, 1899447441, 3049323471, 3921009573, 961987163,
   1508970993, 2453635748, 2870763221, 3624381080, 310598401,
   607225278, 1426881987, 1925078388, 2162078206, 2614888103,
   3248222580, 3835390401, 4022224774, 264347078, 604807628,
   770255983, 1249150122, 1555081692, 1996064986, 2554220882,
   2821834349, 2952996808, 3210313671, 3336571891, 3584528711,
   113926993, 338241895, 666307205, 773529912, 1294757372,
   1396182291, 1695183700, 1986661051, 2177026350, 2456956037,
   2730485921, 2820302411, 3259730800, 3345764771, 3516065817,
   3600352804, 4094571909, 275423344, 430227734, 506948616,
   659060556, 883997877, 958139571, 1322822218, 1537002063,
   1747873779, 1955562222, 2024104815, 2227730452, 2361852424,
   2428436474, 2756734187, 3204031479, 3329325298]

/-- Eight 32-bit hash words, the SHA-256 chaining state. -/
structure Hash8 where
  h0 : Nat
  h1 : Nat
  h2 : Nat
  h3 : Nat
  h4 : Nat
  h5 : Nat
  h6 : Nat
  h7 : Nat
deriving Repr, DecidableEq

/-- SHA-256 initial hash value. -/
def sha256Init : Hash8 :=
  ⟨1779033703, 3144134277, 1013904242, 2773480762,
   1359893119, 2600822924, 528734635, 1541459225⟩

/-- One SHA-256 compression round on the working variables. -/
def shaRound (st : Hash8) (w k : Nat) : Hash8 :=
  let t1 := w32 (st.h7 + bsig1 st.h4 + ch32 st.h4 st.h5 st.h6 + k + w)
  let t2 := w32 (bsig0 st.h0 + maj32 st.h0 st.h1 st.h2)
  ⟨w32 (t1 + t2), st.h0, st.h1, st.h2, w32 (st.h3 + t1), st.h4, st.h5, st.h6⟩

/-- Big-endian packing of bytes into 32-bit words. -/
def toWords32 : List Nat → List Nat
  | b0 :: b1 :: b2 :: b3 :: rest =>
    (b0 * 16777216 + b1 * 65536 + b2 * 256 + b3) :: toWords32 rest
  | _ => []

/-- Extend the 16-word message schedule by the given number of words. -/
def extendW : Nat → List Nat → List Nat
  | 0, acc => acc
  | n + 1, acc =>
    let i := acc.length
    let nw := w32 (acc.getD (i - 16) 0 + ssig0 (acc.getD (i - 15) 0) +
                   acc.getD (i - 7) 0 + ssig1 (acc.getD (i - 2) 0))
    extendW n (acc ++ [nw])

/-- Compress one 64-byte block into the chaining state. -/
def compressBlock (h : Hash8) (block : List Nat) : Hash8 :=
  let ws := extendW 48 (toWords32 block)
  let f := (ws.zip sha256K).foldl (fun st p => shaRound st p.1 p.2) h
  ⟨w32 (h.h0 + f.h0), w32 (h.h1 + f.h1), w32 (h.h2 + f.h2), w32 (h.h3 + f.h3),
   w32 (h.h4 + f.h4), w32 (h.h5 + f.h5), w32 (h.h6 + f.h6), w32 (h.h7 + f.h7)⟩

/-- Big-endian 8-byte encoding of the message bit length. -/
def lenBytes64 (n : Nat) : List Nat :=
  [(n >>> 56) % 256, (n >>> 48) % 256, (n >>> 40) % 256, (n >>> 32) % 256,
   (n >>> 24) % 256, (n >>> 16) % 256, (n >>> 8) % 256, n % 256]

/-- SHA-256 padding: a 0x80 byte, zeros to 56 mod 64, then the bit length. -/
def padMessage (msg : List Nat) : List Nat :=
  msg ++ 0x80 :: (List.replicate ((119 - msg.length % 64) % 64) 0 ++
    lenBytes64 (msg.length * 8))

/-- Split into 64-byte chunks, fueled to stay structurally recursive. -/
def chunks64F : Nat → List Nat → List (List Nat)
  | 0, _ => []
  | _, [] => []
  | fuel + 1, b :: rest => (b :: rest.take 63) :: chunks64F fuel (rest.drop 63)

def chunks64 (l : List Nat) : List (List Nat) := chunks64F l.length l

/-- SHA-256 of a byte sequence, as the eight final hash words. -/
def sha256 (msg : List Nat) : Hash8 :=
  (chunks64 (padMessage msg)).foldl compressBlock sha256Init

/-- Lowercase hex digit of `n % 16`, as produced by `digest('hex')`. -/
def hexChar (n : Nat) : Char :=
  let m := n % 16
  if m < 10 then Char.ofNat (48 + m) else Char.ofNat (87 + m)

/-- Eight lowercase hex digits of a 32-bit word, most significant first. -/
def word8Hex (w : Nat) : List Char :=
  [hexChar (w >>> 28), hexChar (w >>> 24), hexChar (w >>> 20), hexChar (w >>> 16),
   hexChar (w >>> 12), hexChar (w >>> 8), hexChar (w >>> 4), hexChar w]

/-- Hex-encoded SHA-256 digest of a byte sequence: 64 lowercase hex chars. -/
def sha256Hex (msg : List Nat) : String :=
  let h := sha256 msg
  String.mk (word8Hex h.h0 ++ word8Hex h.h1 ++ word8Hex h.h2 ++ word8Hex h.h3 ++
             word8Hex h.h4 ++ word8Hex h.h5 ++ word8Hex h.h6 ++ word8Hex h.h7)

/-- UTF-8 encoding of a single code point, as `hash.update(content, 'utf8')`
re-encodes the JavaScript string before hashing. -/
def utf8EncodeChar (c : Nat) : List Nat :=
  if c < 0x80 then [c]
  else if c < 0x800 then [0xC0 + c / 64, 0x80 + c % 64]
  else if c < 0x10000 then [0xE0 + c / 4096, 0x80 + c / 64 % 64, 0x80 + c % 64]
  else [0xF0 + c / 262144, 0x80 + c / 4096 % 64, 0x80 + c / 64 % 64, 0x80 + c % 64]

/-- UTF-8 byte encoding of a string. -/
def utf8Encode (s : String) : List Nat :=
  (s.data.map (fun c => utf8EncodeChar c.toNat)).flatten

/-- Mirrors `calculateHash(content)`: SHA-256 over the UTF-8 bytes of the
string, hex-encoded (`crypto.createHash('sha256').update(content, 'utf8').digest('hex')`). -/
def calculateHash (content : String) : String :=
  sha256Hex (utf8Encode content)

/-- Is this byte a UTF-8 continuation byte (0x80-0xBF)? -/
def contByte (b : Nat) : Bool := 0x80 ≤ b && b ≤ 0xBF

/-- Valid range for the first continuation byte of a 3-byte lead. -/
def cont3First (lead c : Nat) : Bool :=
  if lead == 0xE0 then 0xA0 ≤ c && c ≤ 0xBF
  else if lead == 0xED then 0x80 ≤ c && c ≤ 0x9F
  else contByte c

/-- Valid range for the first continuation byte of a 4-byte lead. -/
def cont4First (lead c : Nat) : Bool :=
  if lead == 0xF0 then 0x90 ≤ c && c ≤ 0xBF
  else if lead == 0xF4 then 0x80 ≤ c && c ≤ 0x8F
  else contByte c

/-- The U+FFFD replacement character emitted for invalid byte sequences. -/
def replChar : Char := Char.ofNat 0xFFFD

/-- UTF-8 decoding with U+FFFD replacement (maximal-subpart policy), as
performed by `fs.readFileSync(path, 'utf8')` in Node. Fueled to stay
structurally recursive; each step consumes at least one byte. -/
def utf8DecodeF : Nat → List Nat → List Char
  | 0, _ => []
  | _, [] => []
  | fuel + 1, b :: rest =>
    if b ≤ 0x7F then Char.ofNat b :: utf8DecodeF fuel rest
    else if 0xC2 ≤ b && b ≤ 0xDF then
      match rest with
      | [] => [replChar]
      | c1 :: r2 =>
        if contByte c1 then
          Char.ofNat ((b - 0xC0) * 64 + (c1 - 0x80)) :: utf8DecodeF fuel r2
        else replChar :: utf8DecodeF fuel rest
    else if 0xE0 ≤ b && b ≤ 0xEF then
      match rest with
      | [] => [replChar]
      | c1 :: r2 =>
        if cont3First b c1 then
          match r2 with
          | [] => [replChar]
          | c2 :: r3 =>
            if contByte c2 then
              Char.ofNat ((b - 0xE0) * 4096 + (c1 - 0x80) * 64 + (c2 - 0x80)) ::
                utf8DecodeF fuel r3
            else replChar :: utf8DecodeF fuel r2
        else replChar :: utf8DecodeF fuel rest
    else if 0xF0 ≤ b && b ≤ 0xF4 then
      match rest with
      | [] => [replChar]
      | c1 :: r2 =>
        if cont4First b c1 then
          match r2 with
          | [] => [replChar]
          | c2 :: r3 =>
            if contByte c2 then
              match r3 with
              | [] => [replChar]
              | c3 :: r4 =>
                if contByte c3 then
                  Char.ofNat ((b - 0xF0) * 262144 + (c1 - 0x80) * 4096 +
                      (c2 - 0x80) * 64 + (c3 - 0x80)) :: utf8DecodeF fuel r4
                else replChar :: utf8DecodeF fuel r3
            else replChar :: utf8DecodeF fuel r2
        else replChar :: utf8DecodeF fuel rest
    else replChar :: utf8DecodeF fuel rest

/-- Mirrors `fs.readFileSync(filePath, 'utf8')`: decode the file's raw bytes
as UTF-8 text with replacement. -/
def readFileUtf8 (bytes : List Nat) : String :=
  String.mk (utf8DecodeF bytes.length bytes)

/-- The fingerprint actually recorded for a file on disk: the content is
first decoded from bytes to text, then hashed over its re-encoded bytes. -/
def fileFingerprint (bytes : List Nat) : String :=
  calculateHash (readFileUtf8 bytes)

/-- Modelled from the spec (section 4.1 Content Hasher): a digest taken
directly over the file's raw bytes, `hash(bytes) -> fixed-length hex digest`.
The source has no such function; it is stated only to compare the code's
decode-then-hash pipeline against the spec's raw-byte contract. -/
def specRawByteHash (bytes : List Nat) : String := sha256Hex bytes

/-- A file in one of the migration category directories. -/
structure MFile where
  name : String
  bytes : List Nat
deriving DecidableEq, Repr

/-- The migrations directory: the three fixed category locations
`001-schema`, `002-functions`, `003-seed-data`. -/
structure FS where
  schemaDir : List MFile
  functionsDir : List MFile
  seedDir : List MFile
deriving DecidableEq, Repr

/-- A discovered migration, as built by `discoverMigrations`. -/
structure Migration where
  number : Nat
  filename : String
  category : String
  content : String
  hash : String
deriving DecidableEq, Repr

/-- A row of the `blockchain_migrations` ledger table. -/
structure LedgerRecord where
  migration_number : Nat
  filename : String
  hash : String
  status : String
  executed_at : Option Nat := none
  execution_time_ms : Option Nat := none
  error_message : Option String := none
deriving DecidableEq, Repr

/-- The datastore: the ledger table plus the application schema state, the
latter abstract (scripts act on it through an opaque query capability). -/
structure DState (α : Type) where
  ledger : List LedgerRecord
  app : α
deriving DecidableEq, Repr

/-- Lexicographic byte-wise comparison of char lists, modelling the default
string comparison used by JavaScript `Array.prototype.sort()`. -/
def charListLe : List Char → List Char → Bool
  | [], _ => true
  | _ :: _, [] => false
  | a :: as, b :: bs =>
    if a.toNat < b.toNat then true
    else if b.toNat < a.toNat then false
    else charListLe as bs

/-- Filename ordering used for the per-directory `.sort()`. -/
def fileNameLe (a b : MFile) : Prop := charListLe a.name.data b.name.data = true

instance : DecidableRel fileNameLe := fun a b => by
  unfold fileNameLe; infer_instance

/-- Sequence-number ordering used for the final `.sort((a, b) => a.number - b.number)`. -/
def migrationLe (a b : Migration) : Prop := a.number ≤ b.number

instance : DecidableRel migrationLe := fun a b => by
  unfold migrationLe; infer_instance

instance : IsTotal Migration migrationLe :=
  ⟨fun a b => Nat.le_total a.number b.number⟩

instance : IsTrans Migration migrationLe :=
  ⟨fun _ _ _ => Nat.le_trans⟩

/-- Ledger ordering for `ORDER BY migration_number`. -/
def recordLe (a b : LedgerRecord) : Prop := a.migration_number ≤ b.migration_number

instance : DecidableRel recordLe := fun a b => by
  unfold recordLe; infer_instance

instance : IsTotal LedgerRecord recordLe :=
  ⟨fun a b => Nat.le_total a.migration_number b.migration_number⟩

instance : IsTrans LedgerRecord recordLe :=
  ⟨fun _ _ _ => Nat.le_trans⟩

/-- Mirrors `f.endsWith('.sql')` on the char level: the last characters of
the string equal the suffix. -/
def strEndsWith (s suffix : String) : Bool :=
  s.data.drop (s.data.length - suffix.data.length) == suffix.data

/-- The regex `\\d` class: an ASCII digit. -/
def isDigitChar (c : Char) : Bool := 48 ≤ c.toNat && c.toNat ≤ 57

/-- Does a char survive the regex `.` metacharacter (anything but a line
terminator)? -/
def regexDotMatches (c : Char) : Bool :=
  c.toNat != 10 && c.toNat != 13 && c.toNat != 0x2028 && c.toNat != 0x2029

/-- Does the part after `ddd-` match `(.+)\.sql` (anchored at the end)? -/
def matchesBodySql (l : List Char) : Bool :=
  l.length ≥ 5 && (l.drop (l.length - 4) == ['.', 's', 'q', 'l']) &&
    (l.take (l.length - 4)).all regexDotMatches

/-- Mirrors `file.match(/^(\d{3})-(.+)\.sql$/)` followed by
`parseInt(match[1])`: the embedded 3-digit number, or `none` when the
filename does not match the pattern. -/
def parseMigrationNumber (f : String) : Option Nat :=
  match f.data with
  | d1 :: d2 :: d3 :: '-' :: rest =>
    if isDigitChar d1 && isDigitChar d2 && isDigitChar d3 && matchesBodySql rest then
      some ((d1.toNat - 48) * 100 + (d2.toNat - 48) * 10 + (d3.toNat - 48))
    else none
  | _ => none

/-- Build the discovered-migration record for one matching file. -/
def mkMigration (priority : Nat) (dirName : String) (f : MFile) (n : Nat) : Migration :=
  let content := readFileUtf8 f.bytes
  { number := priority * 1000 + n, filename := f.name, category := dirName,
    content := content, hash := calculateHash content }

/-- One directory of `discoverMigrations`: keep `.sql` files, sort by name,
parse each filename, skipping (with a warning) those that do not match. -/
def discoverDir (priority : Nat) (dirName : String) (files : List MFile) : List Migration :=
  let sqlFiles := List.insertionSort fileNameLe
    (files.filter (fun f => strEndsWith f.name ".sql"))
  sqlFiles.filterMap (fun f =>
    match parseMigrationNumber f.name with
    | none => none
    | some n => some (mkMigration priority dirName f n))

/-- Mirrors `discoverMigrations()`: all three category directories, then the
final sort ascending by sequence number. -/
def discoverMigrations (fs : FS) : List Migration :=
  List.insertionSort migrationLe
    (discoverDir 1 "001-schema" fs.schemaDir ++
     discoverDir 2 "002-functions" fs.functionsDir ++
     discoverDir 3 "003-seed-data" fs.seedDir)

/-- Look up a filename in one directory, yielding the file's bytes. -/
def lookupFile (files : List MFile) (filename : String) : Option (List Nat) :=
  match files.find? (fun f => f.name == filename) with
  | some f => some f.bytes
  | none => none

/-- Mirrors `findMigrationFile(filename)`: probe the three category
directories in order, first match wins. -/
def findMigrationFile (fs : FS) (filename : String) : Option (List Nat) :=
  match lookupFile fs.schemaDir filename with
  | some b => some b
  | none =>
    match lookupFile fs.functionsDir filename with
    | some b => some b
    | none => lookupFile fs.seedDir filename

/-- Mirrors `getAppliedMigrations()`: completed ledger rows, ordered by
migration number. -/
def getAppliedMigrations (ledger : List LedgerRecord) : List LedgerRecord :=
  List.insertionSort recordLe (ledger.filter (fun r => r.status == "completed"))

/-- An integrity diagnostic printed by the verifier. -/
inductive Diag where
  | missingScript (filename : String)
  | tamperedScript (filename expected current : String)
deriving DecidableEq, Repr

/-- The verifier's check of one completed record: missing file, hash
mismatch (reporting stored and current digests), or clean. -/
def verifyRecord (fs : FS) (r : LedgerRecord) : Option Diag :=
  match findMigrationFile fs r.filename with
  | none => some (Diag.missingScript r.filename)
  | some bytes =>
    let currentHash := calculateHash (readFileUtf8 bytes)
    if currentHash != r.hash then
      some (Diag.tamperedScript r.filename r.hash currentHash)
    else none

/-- Mirrors `verifyMigrationIntegrity()`: every completed record is checked
and every failure collected; the run is valid only if none failed. -/
def verifyMigrationIntegrity (fs : FS) (ledger : List LedgerRecord) : List Diag :=
  (getAppliedMigrations ledger).filterMap (verifyRecord fs)

/-- Mirrors the `verify` CLI command: exit 0 when the chain is intact,
exit 1 with the collected diagnostics otherwise. -/
def verifyCmd (fs : FS) (ledger : List LedgerRecord) : Nat × List Diag :=
  let diags := verifyMigrationIntegrity fs ledger
  (if diags.isEmpty then 0 else 1, diags)

/-- Outcome of `applyMigration` for one script. -/
inductive ApplyResult where
  | success (executionTime : Nat)
  | skipped (reason : String)
  | failure (message : String)
deriving DecidableEq, Repr

/-- The `'running'` row inserted at the start of an apply transaction. -/
def mkRunningRecord (m : Migration) : LedgerRecord :=
  { migration_number := m.number, filename := m.filename, hash := m.hash,
    status := "running" }

/-- The `UPDATE ... SET status='completed' ... WHERE migration_number = $3`
step of the apply transaction. -/
def markCompleted (ledger : List LedgerRecord) (number dur t : Nat) : List LedgerRecord :=
  ledger.map (fun r =>
    if r.migration_number == number then
      { r with status := "completed", execution_time_ms := some dur,
               executed_at := some t }
    else r)

/-- The failure-path `INSERT ... ON CONFLICT (migration_number) DO UPDATE SET
status = $4, error_message = $5`, run outside the rolled-back transaction. -/
def upsertFailed (ledger : List LedgerRecord) (m : Migration) (msg : String) :
    List LedgerRecord :=
  if ledger.any (fun r => r.migration_number == m.number) then
    ledger.map (fun r =>
      if r.migration_number == m.number then
        { r with status := "failed", error_message := some msg }
      else r)
  else
    ledger ++ [{ migration_number := m.number, filename := m.filename,
                 hash := m.hash, status := "failed", error_message := some msg }]

/-- Mirrors `applyMigration(migration)`. The transaction is modelled by
working on a copy of the state: returning the copy commits it, returning
the original state rolls it back. `exec` is the opaque datastore query
capability executing the script body; `dur` and `t` are the measured
execution time and the commit timestamp. -/
def applyMigration (exec : String → α → Except String α) (dur t : Nat)
    (m : Migration) (st : DState α) : ApplyResult × DState α :=
  if st.ledger.any (fun r => r.migration_number == m.number) then
    (ApplyResult.skipped "already applied", st)
  else
    let txLedger := st.ledger ++ [mkRunningRecord m]
    match exec m.content st.app with
    | Except.ok appNext =>
      (ApplyResult.success dur,
       { ledger := markCompleted txLedger m.number dur t, app := appNext })
    | Except.error e =>
      (ApplyResult.failure e, { st with ledger := upsertFailed st.ledger m e })

/-- The pending-migration loop of `run()`: apply in order, stop with exit
code 1 on the first failure (the thrown error reaches `run`'s catch). -/
def applyLoop (exec : String → α → Except String α) (dur t : Nat) :
    List Migration → DState α → Nat × DState α
  | [], st => (0, st)
  | m :: ms, st =>
    match applyMigration exec dur t m st with
    | (ApplyResult.failure _, st1) => (1, st1)
    | (_, st1) => applyLoop exec dur t ms st1

/-- What `run()` reports: the process exit code and the integrity
diagnostics printed by the verifier. -/
structure RunReport where
  exitCode : Nat
  integrityDiags : List Diag
deriving DecidableEq, Repr

/-- Mirrors `run()`: verify integrity (halting with exit 1 before any
discovery or application when it fails), then discover, filter out
migrations whose number has a completed record, and apply the rest. -/
def runCmd (exec : String → α → Except String α) (dur t : Nat) (fs : FS)
    (st : DState α) : RunReport × DState α :=
  let diags := verifyMigrationIntegrity fs st.ledger
  if diags.isEmpty then
    let migrations := discoverMigrations fs
    let appliedNumbers := (getAppliedMigrations st.ledger).map
      (fun r => r.migration_number)
    let pending := migrations.filter (fun m => !(appliedNumbers.contains m.number))
    let res := applyLoop exec dur t pending st
    ({ exitCode := res.1, integrityDiags := [] }, res.2)
  else
    ({ exitCode := 1, integrityDiags := diags }, st)

/-- Outcome of the reset utility: process exit code and the tables dropped. -/
structure ResetOutcome where
  exitCode : Nat
  dropped : List String
deriving DecidableEq, Repr

/-- Mirrors `reset-dev-db.js`: the production guard runs before any prompt,
a wrong confirmation cancels with exit 0 and no drops, and the exact
literal `"RESET"` drops every table of the public schema. -/
def resetDevDb (isProduction : Bool) (answer : String) (tables : List String) :
    ResetOutcome × List String :=
  if isProduction then ({ exitCode := 1, dropped := [] }, tables)
  else if answer != "RESET" then ({ exitCode := 0, dropped := [] }, tables)
  else ({ exitCode := 0, dropped := tables }, [])

end Migrate

namespace Migrate

/-! ### Helper lemmas about the apply step -/

theorem any_number_eq_false {ledger : List LedgerRecord} {n : Nat}
    (h : ∀ r ∈ ledger, r.migration_number ≠ n) :
    ledger.any (fun r => r.migration_number == n) = false := by
  simp only [List.any_eq_false, beq_iff_eq]
  exact h

theorem map_fixed_eq_self {l : List LedgerRecord} {f : LedgerRecord → LedgerRecord}
    (h : ∀ r ∈ l, f r = r) : l.map f = l := by
  induction l with
  | nil => rfl
  | cons a l ih =>
    simp only [List.map_cons, h a (by simp)]
    rw [ih (fun r hr => h r (by simp [hr]))]

/-- The ledger row a successful apply transaction commits. -/
def completedRecord (m : Migration) (dur t : Nat) : LedgerRecord :=
  { migration_number := m.number, filename := m.filename, hash := m.hash,
    status := "completed", executed_at := some t, execution_time_ms := some dur }

/-- The ledger row written by the failure-path upsert. -/
def failedRecord (m : Migration) (e : String) : LedgerRecord :=
  { migration_number := m.number, filename := m.filename, hash := m.hash,
    status := "failed", error_message := some e }

theorem markCompleted_fresh {ledger : List LedgerRecord} {m : Migration} {dur t : Nat}
    (h : ∀ r ∈ ledger, r.migration_number ≠ m.number) :
    markCompleted (ledger ++ [mkRunningRecord m]) m.number dur t =
      ledger ++ [completedRecord m dur t] := by
  unfold markCompleted
  rw [List.map_append]
  have h1 : ledger.map (fun r =>
      if r.migration_number == m.number then
        { r with status := "completed", execution_time_ms := some dur,
                 executed_at := some t }
      else r) = ledger := by
    apply map_fixed_eq_self
    intro r hr
    simp [h r hr]
  rw [h1]
  simp [mkRunningRecord, completedRecord]

theorem upsertFailed_fresh {ledger : List LedgerRecord} {m : Migration} {e : String}
    (h : ∀ r ∈ ledger, r.migration_number ≠ m.number) :
    upsertFailed ledger m e = ledger ++ [failedRecord m e] := by
  unfold upsertFailed
  rw [any_number_eq_false h]
  simp [failedRecord]

theorem mem_markCompleted_of_ne {l : List LedgerRecord} {r : LedgerRecord}
    {n dur t : Nat} (hr : r ∈ l) (hne : r.migration_number ≠ n) :
    r ∈ markCompleted l n dur t := by
  unfold markCompleted
  exact List.mem_map.mpr ⟨r, hr, by simp [hne]⟩

theorem applyMigration_preserves {α : Type} (exec : String → α → Except String α)
    (dur t : Nat) (m : Migration) (st : DState α) (r : LedgerRecord)
    (hr : r ∈ st.ledger) :
    r ∈ (applyMigration exec dur t m st).2.ledger := by
  unfold applyMigration
  by_cases hany : st.ledger.any (fun x => x.migration_number == m.number) = true
  · simp only [hany, if_true]
    exact hr
  · rw [Bool.not_eq_true] at hany
    have hall : ∀ x ∈ st.ledger, x.migration_number ≠ m.number := by
      simpa [List.any_eq_false] using hany
    simp only [hany, Bool.false_eq_true, if_false]
    cases hx : exec m.content st.app with
    | ok a2 =>
      simp only [hx]
      exact mem_markCompleted_of_ne (List.mem_append_left _ hr) (hall r hr)
    | error e =>
      simp only [hx]
      rw [upsertFailed_fresh hall]
      exact List.mem_append_left _ hr

theorem applyLoop_preserves {α : Type} (exec : String → α → Except String α)
    (dur t : Nat) (ms : List Migration) (st : DState α) (r : LedgerRecord)
    (hr : r ∈ st.ledger) :
    r ∈ (applyLoop exec dur t ms st).2.ledger := by
  induction ms generalizing st with
  | nil => simpa [applyLoop] using hr
  | cons m ms ih =>
    have h1 := applyMigration_preserves exec dur t m st r hr
    unfold applyLoop
    rcases happ : applyMigration exec dur t m st with ⟨res, st1⟩
    rw [happ] at h1
    cases res with
    | success d => exact ih st1 h1
    | skipped s => exact ih st1 h1
    | failure e => exact h1

theorem runCmd_preserves {α : Type} (exec : String → α → Except String α)
    (dur t : Nat) (fs : FS) (st : DState α) (r : LedgerRecord)
    (hr : r ∈ st.ledger) :
    r ∈ (runCmd exec dur t fs st).2.ledger := by
  unfold runCmd
  by_cases hd : (verifyMigrationIntegrity fs st.ledger).isEmpty = true
  · simp only [hd, if_true]
    exact applyLoop_preserves exec dur t _ st r hr
  · rw [Bool.not_eq_true] at hd
    simp only [hd, Bool.false_eq_true, if_false]
    exact hr

/-! ### C10, C7, C2: properties of the apply step -/

/-- C10: if any ledger record (completed, failed, or running) already carries
the migration's sequence number when the apply step starts, `applyMigration`
rolls back its opened transaction, changes nothing in the datastore, and
returns a skipped result; in particular it never resets an existing failed
or running record to running. -/
theorem applyMigration_skips_existing {α : Type} (exec : String → α → Except String α)
    (dur t : Nat) (m : Migration) (st : DState α) (r : LedgerRecord)
    (hr : r ∈ st.ledger) (hn : r.migration_number = m.number) :
    applyMigration exec dur t m st = (ApplyResult.skipped "already applied", st) := by
  unfold applyMigration
  have hany : st.ledger.any (fun x => x.migration_number == m.number) = true :=
    List.any_eq_true.mpr ⟨r, hr, by simp [hn]⟩
  simp [hany]

/-- Concrete failed record used to witness C10. -/
def recC10 : LedgerRecord :=
  { migration_number := 1001, filename := "001-a.sql", hash := "h1",
    status := "failed", error_message := some "earlier failure" }

/-- Concrete migration used to witness C10. -/
def migC10 : Migration :=
  { number := 1001, filename := "001-a.sql", category := "001-schema",
    content := "SELECT 1", hash := "h2" }

/-- Witness for C10: a failed record for the same number makes the apply
step a no-op skip. -/
theorem applyMigration_skips_existing_witness :
    recC10 ∈ [recC10] ∧ recC10.migration_number = migC10.number ∧
    applyMigration (fun _ (n : Nat) => Except.ok (n + 1)) 5 100 migC10 ⟨[recC10], 0⟩ =
      (ApplyResult.skipped "already applied", ⟨[recC10], 0⟩) :=
  ⟨by simp, rfl,
   applyMigration_skips_existing _ 5 100 migC10 ⟨[recC10], 0⟩ recC10 (by simp) rfl⟩

/-- C7: a completed ledger record is immutable: neither a later apply step
(its begin-attempt insert, complete-attempt update, or the failure-path
upsert) nor a whole `run` ever changes or removes it — the record survives
with the same filename, hash, and status. -/
theorem completed_record_immutable {α : Type} (exec : String → α → Except String α)
    (dur t : Nat) (m : Migration) (fs : FS) (st : DState α) (r : LedgerRecord)
    (hr : r ∈ st.ledger) (hc : r.status = "completed") :
    r ∈ (applyMigration exec dur t m st).2.ledger ∧
    r ∈ (runCmd exec dur t fs st).2.ledger :=
  ⟨applyMigration_preserves exec dur t m st r hr,
   runCmd_preserves exec dur t fs st r hr⟩

/-- Concrete completed record used to witness C7. -/
def recC7 : LedgerRecord :=
  { migration_number := 1001, filename := "001-a.sql", hash := "h1",
    status := "completed", executed_at := some 50, execution_time_ms := some 7 }

/-- Witness for C7 at a concrete completed record and a fresh migration. -/
theorem completed_record_immutable_witness :
    recC7 ∈ [recC7] ∧ recC7.status = "completed" ∧
    (recC7 ∈ (applyMigration (fun _ (n : Nat) => Except.ok (n + 1)) 5 100
        { number := 1002, filename := "002-b.sql", category := "001-schema",
          content := "SELECT 2", hash := "h3" } ⟨[recC7], 0⟩).2.ledger ∧
     recC7 ∈ (runCmd (fun _ (n : Nat) => Except.ok (n + 1)) 5 100 ⟨[], [], []⟩
        ⟨[recC7], 0⟩).2.ledger) :=
  ⟨by simp, rfl,
   completed_record_immutable (fun _ (n : Nat) => Except.ok (n + 1)) 5 100
     { number := 1002, filename := "002-b.sql", category := "001-schema",
       content := "SELECT 2", hash := "h3" } ⟨[], [], []⟩ ⟨[recC7], 0⟩ recC7
     (by simp) rfl⟩

theorem applyMigration_fresh_ok {α : Type} {exec : String → α → Except String α}
    {dur t : Nat} {m : Migration} {st : DState α} {a2 : α}
    (h : ∀ r ∈ st.ledger, r.migration_number ≠ m.number)
    (hx : exec m.content st.app = Except.ok a2) :
    applyMigration exec dur t m st =
      (ApplyResult.success dur, ⟨st.ledger ++ [completedRecord m dur t], a2⟩) := by
  unfold applyMigration
  simp only [any_number_eq_false h, Bool.false_eq_true, if_false, hx]
  rw [markCompleted_fresh h]

theorem applyMigration_fresh_err {α : Type} {exec : String → α → Except String α}
    {dur t : Nat} {m : Migration} {st : DState α} {e : String}
    (h : ∀ r ∈ st.ledger, r.migration_number ≠ m.number)
    (hx : exec m.content st.app = Except.error e) :
    applyMigration exec dur t m st =
      (ApplyResult.failure e, ⟨st.ledger ++ [failedRecord m e], st.app⟩) := by
  unfold applyMigration
  simp only [any_number_eq_false h, Bool.false_eq_true, if_false, hx]
  rw [upsertFailed_fresh h]

/-- C2: for an eligible migration (no ledger record with its number) the
apply step is atomic with respect to the datastore: on success the script's
effects and the completed ledger row — with execution time and timestamp —
persist together; on execution error the script's effects are rolled back
while a failed row carrying the error message is written outside the
rolled-back transaction and retained, not deleted. -/
theorem applyMigration_atomic {α : Type} (exec : String → α → Except String α)
    (dur t : Nat) (m : Migration) (st : DState α)
    (h : ∀ r ∈ st.ledger, r.migration_number ≠ m.number) :
    (∀ a2, exec m.content st.app = Except.ok a2 →
      applyMigration exec dur t m st =
        (ApplyResult.success dur, ⟨st.ledger ++ [completedRecord m dur t], a2⟩)) ∧
    (∀ e, exec m.content st.app = Except.error e →
      applyMigration exec dur t m st =
        (ApplyResult.failure e, ⟨st.ledger ++ [failedRecord m e], st.app⟩)) :=
  ⟨fun _ hx => applyMigration_fresh_ok h hx,
   fun _ hx => applyMigration_fresh_err h hx⟩

/-- Concrete migration used to witness C2. -/
def migC2 : Migration :=
  { number := 1001, filename := "001-a.sql", category := "001-schema",
    content := "SELECT 1", hash := "abc" }

/-- Witness for C2: both the success branch and the rollback branch at
concrete inputs. -/
theorem applyMigration_atomic_witness :
    (∀ r ∈ ([] : List LedgerRecord), r.migration_number ≠ migC2.number) ∧
    applyMigration (fun _ (n : Nat) => Except.ok (n + 1)) 5 100 migC2 ⟨[], 0⟩ =
      (ApplyResult.success 5, ⟨[completedRecord migC2 5 100], 1⟩) ∧
    applyMigration (fun _ (_ : Nat) => (Except.error "boom" : Except String Nat))
        5 100 migC2 ⟨[], 0⟩ =
      (ApplyResult.failure "boom", ⟨[failedRecord migC2 "boom"], 0⟩) :=
  ⟨by simp,
   (applyMigration_atomic (fun _ (n : Nat) => Except.ok (n + 1)) 5 100 migC2
     ⟨[], 0⟩ (by simp)).1 1 rfl,
   (applyMigration_atomic (fun _ (_ : Nat) => (Except.error "boom" : Except String Nat))
     5 100 migC2 ⟨[], 0⟩ (by simp)).2 "boom" rfl⟩

/-! ### C5: discovery ordering -/

/-- The priority the source assigns to each category directory. -/
def catPriority (c : String) : Nat :=
  if c == "001-schema" then 1
  else if c == "002-functions" then 2
  else if c == "003-seed-data" then 3
  else 0

theorem parseMigrationNumber_lt {f : String} {n : Nat}
    (h : parseMigrationNumber f = some n) : n < 1000 := by
  unfold parseMigrationNumber at h
  split at h
  · rename_i d1 d2 d3 rest
    split at h
    · rename_i hd
      simp only [Bool.and_eq_true, isDigitChar, decide_eq_true_eq] at hd
      injection h with h
      omega
    · exact absurd h (by simp)
  · exact absurd h (by simp)

theorem mem_discoverDir {p : Nat} {d : String} {files : List MFile} {m : Migration}
    (hm : m ∈ discoverDir p d files) :
    ∃ n, parseMigrationNumber m.filename = some n ∧ n < 1000 ∧
      m.number = p * 1000 + n ∧ m.category = d := by
  unfold discoverDir at hm
  rw [List.mem_filterMap] at hm
  obtain ⟨f, hf, heq⟩ := hm
  cases hp : parseMigrationNumber f.name with
  | none => rw [hp] at heq; exact absurd heq (by simp)
  | some n =>
    rw [hp] at heq
    simp only [Option.some.injEq] at heq
    subst heq
    exact ⟨n, by simpa [mkMigration] using hp, parseMigrationNumber_lt hp,
           by simp [mkMigration], by simp [mkMigration]⟩

theorem mem_discoverMigrations {fs : FS} {m : Migration}
    (hm : m ∈ discoverMigrations fs) :
    ∃ n, parseMigrationNumber m.filename = some n ∧ n < 1000 ∧
      catPriority m.category ∈ [1, 2, 3] ∧
      m.number = catPriority m.category * 1000 + n := by
  rw [discoverMigrations, List.mem_insertionSort] at hm
  rcases List.mem_append.mp hm with hm12 | hm3
  · rcases List.mem_append.mp hm12 with hm1 | hm2
    · obtain ⟨n, hp, hlt, hnum, hcat⟩ := mem_discoverDir hm1
      exact ⟨n, hp, hlt, by simp [hcat, catPriority], by simp [hcat, catPriority, hnum]⟩
    · obtain ⟨n, hp, hlt, hnum, hcat⟩ := mem_discoverDir hm2
      exact ⟨n, hp, hlt, by simp [hcat, catPriority], by simp [hcat, catPriority, hnum]⟩
  · obtain ⟨n, hp, hlt, hnum, hcat⟩ := mem_discoverDir hm3
    exact ⟨n, hp, hlt, by simp [hcat, catPriority], by simp [hcat, catPriority, hnum]⟩

/-- C5: discovery returns a list sorted ascending by
`sequenceNumber = categoryPriority * 1000 + embedded 3-digit number`, so all
schema scripts precede all functions scripts, which precede all seed-data
scripts, and within a category scripts appear in ascending order of their
embedded number. -/
theorem discoverMigrations_ordered (fs : FS) :
    List.Pairwise (fun a b : Migration => a.number ≤ b.number) (discoverMigrations fs) ∧
    (∀ m ∈ discoverMigrations fs, ∃ n, parseMigrationNumber m.filename = some n ∧
      n < 1000 ∧ catPriority m.category ∈ [1, 2, 3] ∧
      m.number = catPriority m.category * 1000 + n) ∧
    List.Pairwise (fun a b : Migration =>
      catPriority a.category ≤ catPriority b.category ∧
      (catPriority a.category = catPriority b.category →
        a.number % 1000 ≤ b.number % 1000)) (discoverMigrations fs) := by
  have hs : List.Pairwise (fun a b : Migration => a.number ≤ b.number)
      (discoverMigrations fs) :=
    List.sorted_insertionSort migrationLe _
  refine ⟨hs, fun m hm => mem_discoverMigrations hm, ?_⟩
  refine hs.imp_of_mem ?_
  intro a b ha hb hle
  obtain ⟨na, _, hna, _, hnuma⟩ := mem_discoverMigrations ha
  obtain ⟨nb, _, hnb, _, hnumb⟩ := mem_discoverMigrations hb
  constructor
  · omega
  · intro _; omega

/-- Filesystem used to witness C5: the spec's ordering example — files
listed out of order on disk, one in the functions category. -/
def fsC5 : FS :=
  ⟨[⟨"002-y.sql", [98]⟩, ⟨"001-z.sql", [97]⟩], [⟨"001-x.sql", [99]⟩], []⟩

/-- Witness for C5: the example set discovers as schema 001, schema 002,
functions 001 — sequence numbers [1001, 1002, 2001]. -/
theorem discoverMigrations_ordered_witness :
    (discoverMigrations fsC5).map (fun m => m.number) = [1001, 1002, 2001] ∧
    (discoverMigrations fsC5).map (fun m => m.filename) =
      ["001-z.sql", "002-y.sql", "001-x.sql"] ∧
    List.Pairwise (fun a b : Migration => a.number ≤ b.number)
      (discoverMigrations fsC5) :=
  ⟨rfl, rfl, (discoverMigrations_ordered fsC5).1⟩

/-! ### The verifier: C6 and C1 -/

theorem mem_getAppliedMigrations {ledger : List LedgerRecord} {r : LedgerRecord} :
    r ∈ getAppliedMigrations ledger ↔ r ∈ ledger ∧ r.status = "completed" := by
  unfold getAppliedMigrations
  rw [List.mem_insertionSort, List.mem_filter]
  simp

theorem missing_mem_verify {fs : FS} {ledger : List LedgerRecord} {r : LedgerRecord}
    (hr : r ∈ getAppliedMigrations ledger)
    (hf : findMigrationFile fs r.filename = none) :
    Diag.missingScript r.filename ∈ verifyMigrationIntegrity fs ledger :=
  List.mem_filterMap.mpr ⟨r, hr, by simp [verifyRecord, hf]⟩

theorem tampered_mem_verify {fs : FS} {ledger : List LedgerRecord} {r : LedgerRecord}
    {bytes : List Nat} (hr : r ∈ getAppliedMigrations ledger)
    (hf : findMigrationFile fs r.filename = some bytes)
    (hne : calculateHash (readFileUtf8 bytes) ≠ r.hash) :
    Diag.tamperedScript r.filename r.hash (calculateHash (readFileUtf8 bytes)) ∈
      verifyMigrationIntegrity fs ledger := by
  apply List.mem_filterMap.mpr
  refine ⟨r, hr, ?_⟩
  simp only [verifyRecord, hf]
  rw [if_pos (by simpa using hne)]

/-- C6: verification is exhaustive — every completed ledger record is
evaluated, a missing live file yields a MissingScript diagnostic and a
digest mismatch a TamperedScript diagnostic, each reported regardless of
earlier failures, and the pass/fail decision is that no record failed. -/
theorem verify_exhaustive (fs : FS) (ledger : List LedgerRecord) :
    (∀ r ∈ getAppliedMigrations ledger,
      (findMigrationFile fs r.filename = none →
        Diag.missingScript r.filename ∈ verifyMigrationIntegrity fs ledger) ∧
      (∀ bytes, findMigrationFile fs r.filename = some bytes →
        calculateHash (readFileUtf8 bytes) ≠ r.hash →
        Diag.tamperedScript r.filename r.hash (calculateHash (readFileUtf8 bytes)) ∈
          verifyMigrationIntegrity fs ledger)) ∧
    (verifyMigrationIntegrity fs ledger = [] ↔
      ∀ r ∈ getAppliedMigrations ledger, verifyRecord fs r = none) := by
  refine ⟨fun r hr => ⟨fun hf => missing_mem_verify hr hf,
    fun bytes hf hne => tampered_mem_verify hr hf hne⟩, ?_⟩
  unfold verifyMigrationIntegrity
  exact List.filterMap_eq_nil_iff

/-- Record used to witness C6. -/
def recC6 : LedgerRecord :=
  { migration_number := 1001, filename := "x.sql", hash := "h1",
    status := "completed" }

/-- Witness for C6: a completed record whose file is gone is reported. -/
theorem verify_exhaustive_witness :
    recC6 ∈ getAppliedMigrations [recC6] ∧
    findMigrationFile ⟨[], [], []⟩ recC6.filename = none ∧
    Diag.missingScript recC6.filename ∈ verifyMigrationIntegrity ⟨[], [], []⟩ [recC6] :=
  ⟨by decide, rfl,
   ((verify_exhaustive ⟨[], [], []⟩ [recC6]).1 recC6 (by decide)).1 rfl⟩

theorem length_calculateHash (s : String) : (calculateHash s).length = 64 := by
  show (String.mk _).length = 64
  rw [String.length]
  simp [word8Hex]

/-- C1: a completed record whose live file hashes differently makes both
`verify` and `run` fail with exit code 1, the diagnostic carries both the
stored and the freshly computed digest, and the run applies no pending
migration (the datastore is left untouched). -/
theorem tampered_halts {α : Type} (exec : String → α → Except String α)
    (dur t : Nat) (fs : FS) (st : DState α) (r : LedgerRecord) (bytes : List Nat)
    (hr : r ∈ st.ledger) (hc : r.status = "completed")
    (hf : findMigrationFile fs r.filename = some bytes)
    (hne : calculateHash (readFileUtf8 bytes) ≠ r.hash) :
    (verifyCmd fs st.ledger).1 = 1 ∧
    Diag.tamperedScript r.filename r.hash (calculateHash (readFileUtf8 bytes)) ∈
      (verifyCmd fs st.ledger).2 ∧
    (runCmd exec dur t fs st).1.exitCode = 1 ∧
    Diag.tamperedScript r.filename r.hash (calculateHash (readFileUtf8 bytes)) ∈
      (runCmd exec dur t fs st).1.integrityDiags ∧
    (runCmd exec dur t fs st).2 = st := by
  have hmem : Diag.tamperedScript r.filename r.hash (calculateHash (readFileUtf8 bytes)) ∈
      verifyMigrationIntegrity fs st.ledger :=
    tampered_mem_verify (mem_getAppliedMigrations.mpr ⟨hr, hc⟩) hf hne
  have hnonempty : (verifyMigrationIntegrity fs st.ledger).isEmpty = false := by
    cases hv : verifyMigrationIntegrity fs st.ledger with
    | nil => rw [hv] at hmem; cases hmem
    | cons d ds => rfl
  refine ⟨?_, ?_, ?_, ?_, ?_⟩
  · unfold verifyCmd
    simp [hnonempty]
  · unfold verifyCmd
    exact hmem
  · unfold runCmd
    simp [hnonempty]
  · unfold runCmd
    simp only [hnonempty, Bool.false_eq_true, if_false]
    exact hmem
  · unfold runCmd
    simp [hnonempty]

/-- Ledger record used to witness C1: its stored digest cannot be a real
one, being 8 characters long rather than 64. -/
def recC1 : LedgerRecord :=
  { migration_number := 1001, filename := "001-a.sql", hash := "deadbeef",
    status := "completed" }

/-- Filesystem used to witness C1: the live file for the record exists. -/
def fsC1 : FS := ⟨[⟨"001-a.sql", [97]⟩], [], []⟩

/-- Witness for C1 at a concrete tampered ledger. -/
theorem tampered_halts_witness :
    recC1 ∈ [recC1] ∧ recC1.status = "completed" ∧
    findMigrationFile fsC1 recC1.filename = some [97] ∧
    calculateHash (readFileUtf8 [97]) ≠ recC1.hash ∧
    ((verifyCmd fsC1 [recC1]).1 = 1 ∧
     (runCmd (fun _ (n : Nat) => Except.ok (n + 1)) 5 100 fsC1 ⟨[recC1], 0⟩).1.exitCode = 1 ∧
     (runCmd (fun _ (n : Nat) => Except.ok (n + 1)) 5 100 fsC1 ⟨[recC1], 0⟩).2 = ⟨[recC1], 0⟩) := by
  have hne : calculateHash (readFileUtf8 [97]) ≠ recC1.hash := by
    intro h
    have hl := length_calculateHash (readFileUtf8 [97])
    rw [h] at hl
    exact absurd hl (by decide)
  have main := tampered_halts (fun _ (n : Nat) => Except.ok (n + 1)) 5 100 fsC1
    ⟨[recC1], 0⟩ recC1 [97] (by simp) rfl rfl hne
  exact ⟨by simp, rfl, rfl, hne, main.1, main.2.2.1, main.2.2.2.2⟩

/-! ### C4: fail-fast halting -/

/-- C4: with pending scripts [S1, S2, S3] in order on a fresh ledger, where
S2's body fails, `run` leaves S1 completed, S2 failed carrying the error
message, S3 without any ledger record (never attempted), keeps S1's effects
while S2's are rolled back, and exits 1 immediately. -/
theorem failfast_halts {α : Type} (exec : String → α → Except String α)
    (dur t : Nat) (fs : FS) (st : DState α) (m1 m2 m3 : Migration) (a1 : α)
    (e : String)
    (hd : discoverMigrations fs = [m1, m2, m3])
    (hl : st.ledger = [])
    (h12 : m1.number ≠ m2.number) (h13 : m1.number ≠ m3.number)
    (h23 : m2.number ≠ m3.number)
    (hx1 : exec m1.content st.app = Except.ok a1)
    (hx2 : exec m2.content a1 = Except.error e)
    (he : e ≠ "") :
    (runCmd exec dur t fs st).1.exitCode = 1 ∧
    (runCmd exec dur t fs st).2.ledger =
      [completedRecord m1 dur t, failedRecord m2 e] ∧
    (failedRecord m2 e).status = "failed" ∧
    (failedRecord m2 e).error_message = some e ∧ e ≠ "" ∧
    (∀ r ∈ (runCmd exec dur t fs st).2.ledger, r.migration_number ≠ m3.number) ∧
    (runCmd exec dur t fs st).2.app = a1 := by
  have happlied : getAppliedMigrations st.ledger = [] := by rw [hl]; rfl
  have hver : verifyMigrationIntegrity fs st.ledger = [] := by
    unfold verifyMigrationIntegrity
    rw [happlied]
    rfl
  have hstep1 : applyMigration exec dur t m1 st =
      (ApplyResult.success dur, ⟨[completedRecord m1 dur t], a1⟩) := by
    have h0 : ∀ r ∈ st.ledger, r.migration_number ≠ m1.number := by
      rw [hl]; simp
    have h2 := @applyMigration_fresh_ok α exec dur t m1 st a1 h0 hx1
    rwa [hl, List.nil_append] at h2
  have hstep2 : applyMigration exec dur t m2 ⟨[completedRecord m1 dur t], a1⟩ =
      (ApplyResult.failure e, ⟨[completedRecord m1 dur t, failedRecord m2 e], a1⟩) := by
    have h1 : ∀ r ∈ [completedRecord m1 dur t], r.migration_number ≠ m2.number := by
      intro r hr
      rw [List.mem_singleton] at hr
      subst hr
      simpa [completedRecord] using h12
    exact applyMigration_fresh_err h1 hx2
  have happ : applyLoop exec dur t [m1, m2, m3] st =
      (1, ⟨[completedRecord m1 dur t, failedRecord m2 e], a1⟩) := by
    unfold applyLoop
    rw [hstep1]
    unfold applyLoop
    rw [hstep2]
  have hrun : runCmd exec dur t fs st =
      ({ exitCode := 1, integrityDiags := [] },
       ⟨[completedRecord m1 dur t, failedRecord m2 e], a1⟩) := by
    unfold runCmd
    rw [hver, hd, happlied]
    simp only [List.isEmpty_nil, if_true, List.map_nil]
    rw [show ([m1, m2, m3].filter fun m => !(List.contains [] m.number)) = [m1, m2, m3]
      from rfl]
    rw [happ]
  refine ⟨by rw [hrun], by rw [hrun], rfl, rfl, he, ?_, by rw [hrun]⟩
  intro r hr
  rw [hrun] at hr
  simp only [List.mem_cons, List.not_mem_nil, or_false] at hr
  rcases hr with rfl | rfl
  · simpa [completedRecord] using h13
  · simpa [failedRecord] using h23

/-- Filesystem used to witness C4: three scripts across two categories. -/
def fsC4 : FS :=
  ⟨[⟨"001-a.sql", [97]⟩, ⟨"002-b.sql", [98]⟩], [⟨"001-c.sql", [99]⟩], []⟩

/-- First discovered migration of the C4 witness. -/
def m1C4 : Migration := mkMigration 1 "001-schema" ⟨"001-a.sql", [97]⟩ 1

/-- Second discovered migration of the C4 witness. -/
def m2C4 : Migration := mkMigration 1 "001-schema" ⟨"002-b.sql", [98]⟩ 2

/-- Third discovered migration of the C4 witness. -/
def m3C4 : Migration := mkMigration 2 "002-functions" ⟨"001-c.sql", [99]⟩ 1

/-- The script executor of the C4 witness: the first script succeeds, the
second fails. -/
def execC4 : String → Nat → Except String Nat :=
  fun _ n => if n == 0 then Except.ok 1 else Except.error "syntax error"

/-- Witness for C4 at a concrete filesystem and executor. -/
theorem failfast_halts_witness :
    discoverMigrations fsC4 = [m1C4, m2C4, m3C4] ∧
    execC4 m1C4.content 0 = Except.ok 1 ∧
    execC4 m2C4.content 1 = Except.error "syntax error" ∧
    ((runCmd execC4 5 100 fsC4 ⟨[], 0⟩).1.exitCode = 1 ∧
     (runCmd execC4 5 100 fsC4 ⟨[], 0⟩).2.ledger =
       [completedRecord m1C4 5 100, failedRecord m2C4 "syntax error"] ∧
     (∀ r ∈ (runCmd execC4 5 100 fsC4 ⟨[], 0⟩).2.ledger,
       r.migration_number ≠ m3C4.number)) := by
  have main := failfast_halts execC4 5 100 fsC4 ⟨[], 0⟩ m1C4 m2C4 m3C4 1
    "syntax error" rfl rfl (by decide) (by decide) (by decide) rfl rfl
    (by decide)
  exact ⟨rfl, rfl, rfl, main.1, main.2.1, main.2.2.2.2.2.1⟩

/-! ### C3: retry of failed records (divergence between spec and code) -/

/-- Filesystem of the C3 failing input: the script file is present (its
content fixed) for a migration whose ledger record is failed. -/
def fsC3 : FS := ⟨[⟨"001-a.sql", [97]⟩], [], []⟩

/-- Ledger record of the C3 failing input: an earlier attempt failed. -/
def recC3 : LedgerRecord :=
  { migration_number := 1001, filename := "001-a.sql", hash := "deadbeef",
    status := "failed", error_message := some "earlier failure" }

/-- C3 at the failing input: the migration is discovered and selected as
pending (its record is not completed), yet the apply step skips it as
"already applied" because any existing record — failed included — blocks
it; the script is never re-executed (the app state stays 0), the record
stays failed, and the run even exits 0. The spec instead makes failed
records eligible for re-execution. -/
theorem failed_record_not_retried :
    (discoverMigrations fsC3).length = 1 ∧
    runCmd (fun _ (n : Nat) => Except.ok (n + 1)) 5 100 fsC3 ⟨[recC3], 0⟩ =
      ({ exitCode := 0, integrityDiags := [] }, ⟨[recC3], 0⟩) ∧
    applyMigration (fun _ (n : Nat) => Except.ok (n + 1)) 5 100
        (mkMigration 1 "001-schema" ⟨"001-a.sql", [97]⟩ 1) ⟨[recC3], 0⟩ =
      (ApplyResult.skipped "already applied", ⟨[recC3], 0⟩) :=
  ⟨rfl, rfl, rfl⟩

/-! ### C8: the fingerprint pipeline -/

/-- The sixteen lowercase hex digits. -/
def hexDigits : List Char := "0123456789abcdef".data

theorem hexChar_mem (n : Nat) : hexChar n ∈ hexDigits := by
  have h16 : ∀ m, m < 16 → hexChar m ∈ hexDigits := by decide
  have hmod : hexChar n = hexChar (n % 16) := by
    unfold hexChar
    rw [Nat.mod_mod_of_dvd n dvd_rfl]
  rw [hmod]
  exact h16 (n % 16) (Nat.mod_lt n (by decide))

theorem mem_word8Hex {c : Char} {w : Nat} (h : c ∈ word8Hex w) : c ∈ hexDigits := by
  simp only [word8Hex, List.mem_cons, List.not_mem_nil, or_false] at h
  rcases h with rfl | rfl | rfl | rfl | rfl | rfl | rfl | rfl <;> exact hexChar_mem _

theorem calculateHash_hex (s : String) : ∀ c ∈ (calculateHash s).data, c ∈ hexDigits := by
  intro c hc
  simp only [calculateHash, sha256Hex, List.mem_append] at hc
  rcases hc with ((((((h | h) | h) | h) | h) | h) | h) | h <;> exact mem_word8Hex h

set_option maxRecDepth 1000000 in
/-- C8 counterexample: the fingerprint is not computed over the file's raw
bytes. The two distinct one-byte files 0xFF and 0xFE — both invalid UTF-8 —
receive the same fingerprint because the content is decoded (to U+FFFD) and
re-encoded before hashing, whereas the raw-byte digest the spec prescribes
distinguishes them. -/
theorem fingerprint_not_raw_bytes :
    fileFingerprint [255] = fileFingerprint [254] ∧
    ([255] : List Nat) ≠ [254] ∧
    specRawByteHash [255] ≠ specRawByteHash [254] := by
  refine ⟨?_, by decide, by decide⟩
  have h : readFileUtf8 [255] = readFileUtf8 [254] := by decide
  unfold fileFingerprint
  rw [h]

/-- C8 amended: the fingerprint is a deterministic pure function producing a
fixed 64-character lowercase-hex digest, but it is computed over the UTF-8
decoding of the file (decoded text, re-encoded when hashed), not its raw
bytes: identical bytes still receive identical fingerprints, and more
generally any two byte contents that decode to the same text share one. -/
theorem fingerprint_amended :
    (∀ s : String, (calculateHash s).length = 64 ∧
      ∀ c ∈ (calculateHash s).data, c ∈ hexDigits) ∧
    (∀ b1 b2 : List Nat, readFileUtf8 b1 = readFileUtf8 b2 →
      fileFingerprint b1 = fileFingerprint b2) ∧
    (∀ b : List Nat, fileFingerprint b = calculateHash (readFileUtf8 b)) :=
  ⟨fun s => ⟨length_calculateHash s, calculateHash_hex s⟩,
   fun b1 b2 h => by unfold fileFingerprint; rw [h],
   fun _ => rfl⟩

/-- Witness for the amended C8 at concrete byte contents. -/
theorem fingerprint_amended_witness :
    readFileUtf8 [255] = readFileUtf8 [254] ∧
    fileFingerprint [255] = fileFingerprint [254] ∧
    (calculateHash "").length = 64 :=
  ⟨by decide, fingerprint_amended.2.1 [255] [254] (by decide),
   (fingerprint_amended.1 "").1⟩

/-! ### C9: the reset utility -/

/-- C9: under the production signal the reset performs zero drops and exits
1 before any prompt; without it, any confirmation other than the exact
literal cancels with exit 0 and no changes, while the exact literal drops
every structure of the working schema — the ledger's own table included. -/
theorem reset_guarded (answer : String) (tables : List String) :
    resetDevDb true answer tables = ({ exitCode := 1, dropped := [] }, tables) ∧
    (answer ≠ "RESET" →
      resetDevDb false answer tables = ({ exitCode := 0, dropped := [] }, tables)) ∧
    resetDevDb false "RESET" tables = ({ exitCode := 0, dropped := tables }, []) ∧
    ("blockchain_migrations" ∈ tables →
      "blockchain_migrations" ∈ (resetDevDb false "RESET" tables).1.dropped) := by
  refine ⟨rfl, ?_, rfl, ?_⟩
  · intro h
    simp [resetDevDb, h]
  · intro h
    simpa [resetDevDb] using h

/-- Witness for C9 at a concrete table set and confirmation inputs. -/
theorem reset_guarded_witness :
    ("no" : String) ≠ "RESET" ∧
    "blockchain_migrations" ∈ ["users", "blockchain_migrations"] ∧
    resetDevDb false "no" ["users", "blockchain_migrations"] =
      ({ exitCode := 0, dropped := [] }, ["users", "blockchain_migrations"]) ∧
    "blockchain_migrations" ∈
      (resetDevDb false "RESET" ["users", "blockchain_migrations"]).1.dropped :=
  ⟨by decide, by decide,
   (reset_guarded "no" ["users", "blockchain_migrations"]).2.1 (by decide),
   (reset_guarded "no" ["users", "blockchain_migrations"]).2.2.2 (by decide)⟩

end Migrate
